import Mathlib

/-!
Verification of the per-record lazy column-text cache of
`ui/qt/models/packet_list_record.cpp` (class `PacketListRecord`).

The embedding below translates the source file into pure Lean functions.
Global mutable state (`cinfo_column_`, `col_data_ver_`) is an explicit
`GlobalState`; the per-record mutable fields are a `RecordState`.  External
collaborators (the capture file, the epan dissection engine, the colour
filters) are an `Env` of uninterpreted, deterministic inputs: for a fixed
record and a fixed session they always produce the same answers, which is
exactly the determinism the source relies on.  Each operation additionally
returns a `Trace` counting how often the record source (`cf_read_record_r`),
the dissector (`epan_dissect_run`) and `dissect` itself were invoked, and
whether a protocol tree was requested.
-/

namespace PacketListRecord

/-- Contents of the global `column_info` as observed by `cacheColumnStrings`
after some fill pass ran (`epan_dissect_fill_in_columns` on the success path,
`col_fill_in_error` on the read-failure path).  `col_data` is
`cinfo->columns[column].col_data` as left by that pass; `frame_col_data` is
the value that `col_fill_in_frame_data` writes into a metadata-only column
when `cacheColumnStrings` fills it directly; `col_expr_val` is
`cinfo->col_expr.col_expr_val[column]` (`none` models a NULL pointer). -/
structure CinfoFill where
  get_column_resolved : Nat → Bool
  col_expr_val : Nat → Option String
  col_data : Nat → String
  frame_col_data : Nat → String

/-- External collaborators of one `PacketListRecord`: the capture file and its
`column_info` schema (`num_cols`), the record source (`read_ok` is the result
of `cf_read_record_r` for this record), the colour-filter and custom-column
configuration, and the deterministic outcome of a dissection pass. -/
structure Env where
  capFilePresent : Bool
  num_cols : Nat
  read_ok : Bool
  color_filters_used : Bool
  have_custom_cols : Bool
  have_field_extractors : Bool
  successFill : CinfoFill
  errorFill : CinfoFill
  color_result : Option Nat
  conv_result : Option Nat

/-- Global (static) state of `PacketListRecord`: the display-column index map
`cinfo_column_` (a `QMap<int, int>`, as an association list) and the global
column-data generation `col_data_ver_`. -/
structure GlobalState where
  cinfo_column_ : List (Nat × Nat)
  col_data_ver_ : Nat
deriving DecidableEq

/-- Per-record mutable state: the cached column texts `col_text_` (`none`
models a NULL `ColumnTextList` pointer; the interned entries themselves are
never NULL), the line count `lines_`, the `line_count_changed_` flag, the
record's version stamp `data_ver_`, the `colorized_` flag, the conversation
reference `conv_`, and the highlighting slots `fdata_->color_filter` and
`fdata_->need_colorize` on the record metadata. -/
structure RecordState where
  col_text_ : Option (List String)
  lines_ : Nat
  line_count_changed_ : Bool
  data_ver_ : Nat
  colorized_ : Bool
  conv_ : Option Nat
  color_filter : Option Nat
  need_colorize : Bool
deriving DecidableEq

/-- Invocation counts of one operation: calls of `dissect`, of the record
source `cf_read_record_r`, of the dissector `epan_dissect_run`, and whether a
protocol tree was requested from it (`create_proto_tree`). -/
structure Trace where
  dissects : Nat
  reads : Nat
  parses : Nat
  treeRequested : Bool
deriving DecidableEq

/-- State of a freshly constructed record (the `PacketListRecord` constructor):
no cached texts, one line, version stamp `0`, not colorized. -/
def initRecord : RecordState :=
  { col_text_ := none
    lines_ := 1
    line_count_changed_ := false
    data_ver_ := 0
    colorized_ := false
    conv_ := none
    color_filter := none
    need_colorize := false }

/-- Initial global state: `cinfo_column_` empty and `col_data_ver_ = 1`. -/
def initGlobal : GlobalState :=
  { cinfo_column_ := [], col_data_ver_ := 1 }

/-- Lookup `cinfo_column_.value(column, -1)` of the `QMap<int, int>`. -/
def cinfoColumnValue (m : List (Nat × Nat)) (column : Nat) : Int :=
  match m.find? (fun p => p.1 == column) with
  | some p => (p.2 : Int)
  | none => -1

/-- Modelled from the spec: `PacketListRecord::invalidateAllRecords` is
declared in the class header, which is not among the sources; per the spec it
bumps the global generation (`col_data_ver_`) exactly once and does not touch
any per-record cache. -/
def invalidateAllRecords (g : GlobalState) : GlobalState :=
  { g with col_data_ver_ := g.col_data_ver_ + 1 }

/-- Loop body of `PacketListRecord::resetColumns`: register each column `i`
that is not based on `frame_data` under the next free text-column index `j`. -/
def buildCinfoColumn (based_on_frame_data : Nat → Bool) (num_cols : Nat) :
    List (Nat × Nat) :=
  ((List.range num_cols).foldl
    (fun acc i =>
      if based_on_frame_data i = false then (acc.1 ++ [(i, acc.2)], acc.2 + 1)
      else acc)
    ([], 0)).1

/-- `PacketListRecord::resetColumns(column_info *cinfo)`: invalidate all
records, then - only when `cinfo` is non-NULL - rebuild `cinfo_column_` from
the new descriptor (`some (num_cols, col_based_on_frame_data)`). -/
def resetColumns (g : GlobalState) (cinfo : Option (Nat × (Nat → Bool))) :
    GlobalState :=
  let g' := invalidateAllRecords g
  match cinfo with
  | none => g'
  | some (num_cols, based) =>
      { g' with cinfo_column_ := buildCinfoColumn based num_cols }

/-- `PacketListRecord::resetColorized()`: clear the `colorized_` flag. -/
def resetColorized (r : RecordState) : RecordState :=
  { r with colorized_ := false }

/-- Number of embedded `\n` characters of a column string. -/
def countNewlines (s : String) : Nat :=
  (s.toList.filter (fun c => c = '\n')).length

/-- The string chosen for one column by `cacheColumnStrings` (the
default, interning `MINIMIZE_STRING_COPYING`-off path): the unresolved
`col_expr_val` when the column is not displayed resolved and that value is
non-NULL; otherwise the column's `col_data`, where a column absent from
`cinfo_column_` (based on `frame_data`) is first filled by
`col_fill_in_frame_data`.  `g_string_chunk_insert_const` deduplicates by
content and is the identity on the content we track. -/
def colStr (g : GlobalState) (f : CinfoFill) (column : Nat) : String :=
  if f.get_column_resolved column = false ∧ (f.col_expr_val column).isSome then
    (f.col_expr_val column).getD ""
  else if cinfoColumnValue g.cinfo_column_ column < 0 then
    f.frame_col_data column
  else
    f.col_data column

/-- One iteration of the column loop of `cacheColumnStrings`: append the
interned string, count its lines, and raise the running `lines_` (setting
`line_count_changed_`) when this column has more lines. -/
def cacheStep (g : GlobalState) (f : CinfoFill)
    (acc : List String × Nat × Bool) (column : Nat) :
    List String × Nat × Bool :=
  let s := colStr g f column
  let col_lines := countNewlines s + 1
  if acc.2.1 < col_lines then (acc.1 ++ [s], col_lines, true)
  else (acc.1 ++ [s], acc.2.1, acc.2.2)

/-- `PacketListRecord::cacheColumnStrings(column_info *cinfo)`: NULL `cinfo`
is a no-op; otherwise clear (or create) `col_text_`, reset `lines_` to `1`
and `line_count_changed_` to `false`, then run the column loop. -/
def cacheColumnStrings (g : GlobalState) (cinfo : Option (Nat × CinfoFill))
    (r : RecordState) : RecordState :=
  match cinfo with
  | none => r
  | some (num_cols, f) =>
      let res := (List.range num_cols).foldl (cacheStep g f) ([], 1, false)
      { r with
          col_text_ := some res.1
          lines_ := res.2.1
          line_count_changed_ := res.2.2 }

/-- `PacketListRecord::dissect(capture_file *cap_file, bool dissect_color)`.
`dissect_columns` is decided from the pre-call cache exactly as in the source
(`col_text_->isEmpty() || data_ver_ != col_data_ver_` after a NULL `col_text_`
was replaced by a fresh empty list).  On read failure the columns are filled
by `col_fill_in_error` (the `errorFill` view) and cached, the colour filter is
cleared and `colorized_` set when colorization was requested, and the function
returns without updating `data_ver_`.  On success a protocol tree is requested
iff a colour filter must run or custom columns / field extractors need field
values; the dissector runs once, columns are cached from the `successFill`
view, and `data_ver_` and `conv_` are updated. -/
def dissect (env : Env) (g : GlobalState) (r : RecordState)
    (dissect_color : Bool) : RecordState × Trace :=
  let ct := r.col_text_.getD []
  let r0 := { r with col_text_ := some ct }
  if env.capFilePresent = false then
    (r0, ⟨1, 0, 0, false⟩)
  else if env.read_ok = false then
    let r1 :=
      if ct = [] ∨ r.data_ver_ ≠ g.col_data_ver_ then
        cacheColumnStrings g (some (env.num_cols, env.errorFill)) r0
      else r0
    let r2 :=
      if dissect_color = true then
        { r1 with color_filter := none, colorized_ := true }
      else r1
    (r2, ⟨1, 1, 0, false⟩)
  else
    let tree :=
      (dissect_color && env.color_filters_used) ||
        (decide (ct = [] ∨ r.data_ver_ ≠ g.col_data_ver_) &&
          (env.have_custom_cols || env.have_field_extractors))
    let r1 :=
      if dissect_color = true then
        { r0 with need_colorize := true, color_filter := env.color_result }
      else r0
    let r2 :=
      if ct = [] ∨ r.data_ver_ ≠ g.col_data_ver_ then
        cacheColumnStrings g (some (env.num_cols, env.successFill)) r1
      else r1
    let r3 := if dissect_color = true then { r2 with colorized_ := true } else r2
    ({ r3 with data_ver_ := g.col_data_ver_, conv_ := env.conv_result },
     ⟨1, 1, 1, tree⟩)

/-- `PacketListRecord::columnString(capture_file *cap_file, int column, bool
colorized)` - the spec's `getColumnText`.  NULL capture file or `column < 0`
or `column > num_cols` (note: strictly greater, as in the source) returns an
empty result without touching the record.  Otherwise `dissect` runs when the
cache is missing, too short, version-stale, or a colorization upgrade is
requested; the result is `col_text_->value(column, QByteArray())`.  The
source's NULL-entry test `!col_text_->at(column)` is always false here: the
interned entries of this embedding are never NULL strings. -/
def columnString (env : Env) (g : GlobalState) (r : RecordState)
    (column : Int) (colorized : Bool) : String × RecordState × Trace :=
  if env.capFilePresent = false ∨ column < 0 ∨ (env.num_cols : Int) < column then
    ("", r, ⟨0, 0, 0, false⟩)
  else
    let c := column.toNat
    let dissect_color := colorized && !r.colorized_
    let p :=
      if r.col_text_ = none ∨ (r.col_text_.getD []).length ≤ c ∨
          r.data_ver_ ≠ g.col_data_ver_ ∨ dissect_color = true then
        dissect env g r dissect_color
      else (r, ⟨0, 0, 0, false⟩)
    ((p.1.col_text_.getD []).getD c "", p.1, p.2)

/-- Modelled from the spec: the `column_info` contents after
`col_fill_in_error(cinfo, fdata_, FALSE, FALSE)` (epan code, not among the
sources).  The designated informational column carries an explicit error
marker, every other column a placeholder value; no unresolved expression
values are produced, and columns read as resolved.  The `frame_col_data`
component is the metadata value `col_fill_in_frame_data` would write and is
passed through unchanged. -/
def errFillCinfo (info_col : Nat) (marker : String) (placeholder : Nat → String)
    (frameData : Nat → String) : CinfoFill :=
  { get_column_resolved := fun _ => true
    col_expr_val := fun _ => none
    col_data := fun c => if c = info_col then marker else placeholder c
    frame_col_data := frameData }

/-! ### Helper lemmas about the column-caching loop -/

theorem cacheStep_fst (g : GlobalState) (f : CinfoFill)
    (acc : List String × Nat × Bool) (x : Nat) :
    (cacheStep g f acc x).1 = acc.1 ++ [colStr g f x] := by
  unfold cacheStep
  dsimp only
  split <;> rfl

theorem cacheStep_lines (g : GlobalState) (f : CinfoFill)
    (acc : List String × Nat × Bool) (x : Nat) :
    (cacheStep g f acc x).2.1 = max acc.2.1 (countNewlines (colStr g f x) + 1) := by
  unfold cacheStep
  dsimp only
  split <;> rename_i h
  · exact (Nat.max_eq_right (Nat.le_of_lt h)).symm
  · exact (Nat.max_eq_left (Nat.le_of_not_lt h)).symm

theorem cacheStep_changed (g : GlobalState) (f : CinfoFill)
    (acc : List String × Nat × Bool) (x : Nat) :
    (cacheStep g f acc x).2.2 =
      (acc.2.2 || decide (acc.2.1 < countNewlines (colStr g f x) + 1)) := by
  unfold cacheStep
  dsimp only
  split <;> rename_i h <;> simp [h]

theorem foldl_cacheStep_fst (g : GlobalState) (f : CinfoFill) :
    ∀ (l : List Nat) (acc : List String × Nat × Bool),
      (l.foldl (cacheStep g f) acc).1 = acc.1 ++ l.map (colStr g f) := by
  intro l
  induction l with
  | nil => intro acc; simp
  | cons x xs ih =>
      intro acc
      rw [List.foldl_cons, ih, List.map_cons, cacheStep_fst]
      simp

theorem foldl_cacheStep_lines (g : GlobalState) (f : CinfoFill) :
    ∀ (l : List Nat) (acc : List String × Nat × Bool),
      (l.foldl (cacheStep g f) acc).2.1 =
        l.foldl (fun m x => max m (countNewlines (colStr g f x) + 1)) acc.2.1 := by
  intro l
  induction l with
  | nil => intro acc; rfl
  | cons x xs ih =>
      intro acc
      rw [List.foldl_cons, List.foldl_cons, ih, cacheStep_lines]

theorem le_foldl_max (h : Nat → Nat) :
    ∀ (l : List Nat) (a : Nat), a ≤ l.foldl (fun m x => max m (h x)) a := by
  intro l
  induction l with
  | nil => intro a; simp
  | cons x xs ih =>
      intro a
      rw [List.foldl_cons]
      exact le_trans (Nat.le_max_left a (h x)) (ih (max a (h x)))

theorem foldl_max_le_of_mem (h : Nat → Nat) :
    ∀ (l : List Nat) (a x : Nat), x ∈ l →
      h x ≤ l.foldl (fun m y => max m (h y)) a := by
  intro l
  induction l with
  | nil => intro a x hx; cases hx
  | cons y ys ih =>
      intro a x hx
      rw [List.foldl_cons]
      rcases List.mem_cons.mp hx with rfl | hx
      · exact le_trans (Nat.le_max_right a (h x)) (le_foldl_max h ys _)
      · exact ih _ x hx

theorem foldl_max_eq_or_mem (h : Nat → Nat) :
    ∀ (l : List Nat) (a : Nat),
      l.foldl (fun m y => max m (h y)) a = a ∨
        ∃ x, x ∈ l ∧ l.foldl (fun m y => max m (h y)) a = h x := by
  intro l
  induction l with
  | nil => intro a; left; rfl
  | cons y ys ih =>
      intro a
      rw [List.foldl_cons]
      rcases ih (max a (h y)) with heq | ⟨x, hx, heq⟩
      · rw [heq]
        rcases max_choice a (h y) with hm | hm
        · left; exact hm
        · right; exact ⟨y, List.mem_cons_self y ys, hm⟩
      · right; exact ⟨x, List.mem_cons_of_mem _ hx, heq⟩

theorem foldl_cacheStep_lines_le (g : GlobalState) (f : CinfoFill)
    (l : List Nat) (acc : List String × Nat × Bool) :
    acc.2.1 ≤ (l.foldl (cacheStep g f) acc).2.1 := by
  rw [foldl_cacheStep_lines]
  exact le_foldl_max _ l acc.2.1

theorem foldl_cacheStep_changed (g : GlobalState) (f : CinfoFill) :
    ∀ (l : List Nat) (acc : List String × Nat × Bool),
      (l.foldl (cacheStep g f) acc).2.2 =
        (acc.2.2 || decide (acc.2.1 < (l.foldl (cacheStep g f) acc).2.1)) := by
  intro l
  induction l with
  | nil => intro acc; simp
  | cons x xs ih =>
      intro acc
      rw [List.foldl_cons, ih]
      by_cases hx : acc.2.1 < countNewlines (colStr g f x) + 1
      · have h1 : (cacheStep g f acc x).2.1 = countNewlines (colStr g f x) + 1 := by
          rw [cacheStep_lines]; omega
        have h2 : (cacheStep g f acc x).2.2 = true := by
          rw [cacheStep_changed]; simp [hx]
        have h3 : acc.2.1 < (xs.foldl (cacheStep g f) (cacheStep g f acc x)).2.1 := by
          have h4 := foldl_cacheStep_lines_le g f xs (cacheStep g f acc x)
          omega
        simp [h2, h3]
      · have h1 : (cacheStep g f acc x).2.1 = acc.2.1 := by
          rw [cacheStep_lines]; omega
        have h2 : (cacheStep g f acc x).2.2 = acc.2.2 := by
          rw [cacheStep_changed]; simp [hx]
        rw [h1, h2]

/-! ### Projections of `cacheColumnStrings` -/

theorem cache_col_text (g : GlobalState) (n : Nat) (f : CinfoFill) (r : RecordState) :
    (cacheColumnStrings g (some (n, f)) r).col_text_ =
      some ((List.range n).map (colStr g f)) := by
  unfold cacheColumnStrings
  dsimp only
  rw [foldl_cacheStep_fst]
  simp

theorem cache_lines (g : GlobalState) (n : Nat) (f : CinfoFill) (r : RecordState) :
    (cacheColumnStrings g (some (n, f)) r).lines_ =
      (List.range n).foldl (fun m c => max m (countNewlines (colStr g f c) + 1)) 1 := by
  unfold cacheColumnStrings
  dsimp only
  rw [foldl_cacheStep_lines]

theorem cache_changed (g : GlobalState) (n : Nat) (f : CinfoFill) (r : RecordState) :
    (cacheColumnStrings g (some (n, f)) r).line_count_changed_ =
      decide (1 < (cacheColumnStrings g (some (n, f)) r).lines_) := by
  unfold cacheColumnStrings
  dsimp only
  rw [foldl_cacheStep_changed, foldl_cacheStep_lines]
  simp

theorem cache_lines_pos (g : GlobalState) (n : Nat) (f : CinfoFill) (r : RecordState) :
    1 ≤ (cacheColumnStrings g (some (n, f)) r).lines_ := by
  rw [cache_lines]
  exact le_foldl_max _ _ 1

theorem cache_data_ver (g : GlobalState) (cinfo : Option (Nat × CinfoFill))
    (r : RecordState) :
    (cacheColumnStrings g cinfo r).data_ver_ = r.data_ver_ := by
  rcases cinfo with _ | ⟨n, f⟩ <;> simp [cacheColumnStrings]

theorem cache_colorized (g : GlobalState) (cinfo : Option (Nat × CinfoFill))
    (r : RecordState) :
    (cacheColumnStrings g cinfo r).colorized_ = r.colorized_ := by
  rcases cinfo with _ | ⟨n, f⟩ <;> simp [cacheColumnStrings]

theorem cache_conv (g : GlobalState) (cinfo : Option (Nat × CinfoFill))
    (r : RecordState) :
    (cacheColumnStrings g cinfo r).conv_ = r.conv_ := by
  rcases cinfo with _ | ⟨n, f⟩ <;> simp [cacheColumnStrings]

theorem cache_color_filter (g : GlobalState) (cinfo : Option (Nat × CinfoFill))
    (r : RecordState) :
    (cacheColumnStrings g cinfo r).color_filter = r.color_filter := by
  rcases cinfo with _ | ⟨n, f⟩ <;> simp [cacheColumnStrings]

theorem cache_need_colorize (g : GlobalState) (cinfo : Option (Nat × CinfoFill))
    (r : RecordState) :
    (cacheColumnStrings g cinfo r).need_colorize = r.need_colorize := by
  rcases cinfo with _ | ⟨n, f⟩ <;> simp [cacheColumnStrings]

theorem getD_map_range (h : Nat → String) (n c : Nat) (hc : c < n) :
    ((List.range n).map h).getD c "" = h c := by
  have hlen : c < ((List.range n).map h).length := by
    simpa using hc
  rw [List.getD_eq_getElem _ _ hlen]
  simp

/-! ### Projections of `dissect` on the three paths -/

theorem dissect_success_trace (env : Env) (g : GlobalState) (r : RecordState)
    (dc : Bool) (hcap : env.capFilePresent = true) (hok : env.read_ok = true) :
    (dissect env g r dc).2 =
      ⟨1, 1, 1,
        (dc && env.color_filters_used) ||
          (decide (r.col_text_.getD [] = [] ∨ r.data_ver_ ≠ g.col_data_ver_) &&
            (env.have_custom_cols || env.have_field_extractors))⟩ := by
  unfold dissect
  simp [hcap, hok]

theorem dissect_success_data_ver (env : Env) (g : GlobalState) (r : RecordState)
    (dc : Bool) (hcap : env.capFilePresent = true) (hok : env.read_ok = true) :
    (dissect env g r dc).1.data_ver_ = g.col_data_ver_ := by
  unfold dissect
  simp [hcap, hok]

theorem dissect_success_colorized (env : Env) (g : GlobalState) (r : RecordState)
    (dc : Bool) (hcap : env.capFilePresent = true) (hok : env.read_ok = true) :
    (dissect env g r dc).1.colorized_ = (dc || r.colorized_) := by
  unfold dissect
  dsimp only
  cases dc <;> split_ifs <;> simp_all [cache_colorized]

theorem dissect_success_col_text_cols (env : Env) (g : GlobalState)
    (r : RecordState) (dc : Bool)
    (hcap : env.capFilePresent = true) (hok : env.read_ok = true)
    (hcols : r.col_text_.getD [] = [] ∨ r.data_ver_ ≠ g.col_data_ver_) :
    (dissect env g r dc).1.col_text_ =
      some ((List.range env.num_cols).map (colStr g env.successFill)) := by
  unfold dissect
  dsimp only
  cases dc <;> split_ifs <;> simp_all [cache_col_text]

theorem dissect_success_col_text_nocols (env : Env) (g : GlobalState)
    (r : RecordState) (dc : Bool)
    (hcap : env.capFilePresent = true) (hok : env.read_ok = true)
    (hcols : ¬(r.col_text_.getD [] = [] ∨ r.data_ver_ ≠ g.col_data_ver_)) :
    (dissect env g r dc).1.col_text_ = some (r.col_text_.getD []) := by
  unfold dissect
  dsimp only
  cases dc <;> split_ifs <;> simp_all

theorem dissect_error_trace (env : Env) (g : GlobalState) (r : RecordState)
    (dc : Bool) (hcap : env.capFilePresent = true) (hko : env.read_ok = false) :
    (dissect env g r dc).2 = ⟨1, 1, 0, false⟩ := by
  unfold dissect
  simp [hcap, hko]

theorem dissect_error_data_ver (env : Env) (g : GlobalState) (r : RecordState)
    (dc : Bool) (hcap : env.capFilePresent = true) (hko : env.read_ok = false) :
    (dissect env g r dc).1.data_ver_ = r.data_ver_ := by
  unfold dissect
  dsimp only
  cases dc <;> split_ifs <;> simp_all [cache_data_ver]

theorem dissect_error_colorized (env : Env) (g : GlobalState) (r : RecordState)
    (dc : Bool) (hcap : env.capFilePresent = true) (hko : env.read_ok = false) :
    (dissect env g r dc).1.colorized_ = (dc || r.colorized_) := by
  unfold dissect
  dsimp only
  cases dc <;> split_ifs <;> simp_all [cache_colorized]

theorem dissect_error_col_text_cols (env : Env) (g : GlobalState)
    (r : RecordState) (dc : Bool)
    (hcap : env.capFilePresent = true) (hko : env.read_ok = false)
    (hcols : r.col_text_.getD [] = [] ∨ r.data_ver_ ≠ g.col_data_ver_) :
    (dissect env g r dc).1.col_text_ =
      some ((List.range env.num_cols).map (colStr g env.errorFill)) := by
  unfold dissect
  dsimp only
  cases dc <;> split_ifs <;> simp_all [cache_col_text]

theorem dissect_error_col_text_nocols (env : Env) (g : GlobalState)
    (r : RecordState) (dc : Bool)
    (hcap : env.capFilePresent = true) (hko : env.read_ok = false)
    (hcols : ¬(r.col_text_.getD [] = [] ∨ r.data_ver_ ≠ g.col_data_ver_)) :
    (dissect env g r dc).1.col_text_ = some (r.col_text_.getD []) := by
  unfold dissect
  dsimp only
  cases dc <;> split_ifs <;> simp_all

theorem dissect_error_color_filter (env : Env) (g : GlobalState)
    (r : RecordState) (dc : Bool)
    (hcap : env.capFilePresent = true) (hko : env.read_ok = false)
    (hdc : dc = true) :
    (dissect env g r dc).1.color_filter = none := by
  subst hdc
  unfold dissect
  simp [hcap, hko]

theorem dissect_dissects (env : Env) (g : GlobalState) (r : RecordState)
    (dc : Bool) : (dissect env g r dc).2.dissects = 1 := by
  by_cases hcap : env.capFilePresent = true
  · by_cases hok : env.read_ok = true
    · rw [dissect_success_trace env g r dc hcap hok]
    · rw [dissect_error_trace env g r dc hcap (by simpa using hok)]
  · unfold dissect
    simp [Bool.eq_false_iff.mpr hcap]

/-! ### Scenario lemmas for `columnString` -/

theorem columnString_cached (env : Env) (g : GlobalState) (r : RecordState)
    (col : Nat) (cz : Bool) (l : List String)
    (hcap : env.capFilePresent = true) (hcol : col < env.num_cols)
    (hsome : r.col_text_ = some l) (hlt : col < l.length)
    (hver : r.data_ver_ = g.col_data_ver_)
    (hcz : cz = false ∨ r.colorized_ = true) :
    columnString env g r (col : Int) cz = (l.getD col "", r, ⟨0, 0, 0, false⟩) := by
  have hg : ¬(env.capFilePresent = false ∨ (col : Int) < 0 ∨
      (env.num_cols : Int) < (col : Int)) := by
    rw [hcap]
    push_neg
    refine ⟨by simp, by omega, by omega⟩
  have hc : ((col : Int)).toNat = col := by omega
  have hdc : (cz && !r.colorized_) = false := by
    rcases hcz with h | h <;> simp [h]
  unfold columnString
  rw [if_neg hg]
  dsimp only
  have hcond : ¬(r.col_text_ = none ∨
      (r.col_text_.getD []).length ≤ ((col : Int)).toNat ∨
      r.data_ver_ ≠ g.col_data_ver_ ∨ (cz && !r.colorized_) = true) := by
    push_neg
    refine ⟨by simp [hsome], ?_, hver, by simp [hdc]⟩
    rw [hsome, hc]
    simpa using hlt
  rw [if_neg hcond]
  dsimp only
  rw [hsome, hc]
  rfl

theorem columnString_dissect_eq (env : Env) (g : GlobalState) (r : RecordState)
    (col : Nat) (cz : Bool)
    (hcap : env.capFilePresent = true) (hcol : col < env.num_cols)
    (hneed : r.col_text_ = none ∨ (r.col_text_.getD []).length ≤ col ∨
      r.data_ver_ ≠ g.col_data_ver_ ∨ (cz && !r.colorized_) = true) :
    columnString env g r (col : Int) cz =
      (((dissect env g r (cz && !r.colorized_)).1.col_text_.getD []).getD col "",
       (dissect env g r (cz && !r.colorized_)).1,
       (dissect env g r (cz && !r.colorized_)).2) := by
  have hg : ¬(env.capFilePresent = false ∨ (col : Int) < 0 ∨
      (env.num_cols : Int) < (col : Int)) := by
    rw [hcap]
    push_neg
    refine ⟨by simp, by omega, by omega⟩
  have hc : ((col : Int)).toNat = col := by omega
  unfold columnString
  rw [if_neg hg]
  dsimp only
  rw [hc, if_pos hneed]

theorem dissect_lines_pos (env : Env) (g : GlobalState) (r : RecordState)
    (dc : Bool) (hr : 1 ≤ r.lines_) : 1 ≤ (dissect env g r dc).1.lines_ := by
  unfold dissect
  dsimp only
  split_ifs <;> dsimp only <;> first
    | exact hr
    | exact cache_lines_pos _ _ _ _

theorem columnString_lines_pos (env : Env) (g : GlobalState) (r : RecordState)
    (column : Int) (cz : Bool) (hr : 1 ≤ r.lines_) :
    1 ≤ (columnString env g r column cz).2.1.lines_ := by
  unfold columnString
  dsimp only
  split_ifs <;> dsimp only <;> first
    | exact hr
    | exact dissect_lines_pos _ _ _ _ hr

/-! ### Concrete sample session used by witnesses and counterexamples -/

/-- Sample dissection outcome: every parser-derived column reads "payload";
the metadata value of column 0 spans three lines. -/
def sampleFill : CinfoFill :=
  { get_column_resolved := fun _ => true
    col_expr_val := fun _ => none
    col_data := fun _ => "payload"
    frame_col_data := fun c => if c = 0 then "a\n\nb" else "m" }

/-- Sample environment: two columns, reads succeed, colour filters active but
no custom columns or field extractors. -/
def envS : Env :=
  { capFilePresent := true
    num_cols := 2
    read_ok := true
    color_filters_used := true
    have_custom_cols := false
    have_field_extractors := false
    successFill := sampleFill
    errorFill := errFillCinfo 1 "[Record read error]" (fun _ => "-") (fun _ => "m")
    color_result := some 3
    conv_result := some 9 }

/-- Same session with a failing record source. -/
def envErr : Env := { envS with read_ok := false }

/-- Global state after `resetColumns` for the two-column schema in which
column 0 is based on `frame_data` and column 1 (the Info column) is not. -/
def g1 : GlobalState := resetColumns initGlobal (some (2, fun c => c == 0))

/-- A record already populated under `g1` without colorization. -/
def rPop : RecordState :=
  { col_text_ := some ["m", "payload"]
    lines_ := 1
    line_count_changed_ := false
    data_ver_ := 2
    colorized_ := false
    conv_ := none
    color_filter := none
    need_colorize := false }

/-- A record populated under the initial single-generation state (version 1),
about to be invalidated by a schema change. -/
def rOld : RecordState :=
  { col_text_ := some ["old"]
    lines_ := 1
    line_count_changed_ := false
    data_ver_ := 1
    colorized_ := false
    conv_ := none
    color_filter := none
    need_colorize := false }

/-! ### The claims -/

/-- C10: calling `resetColumns` with a NULL column descriptor still
invalidates every record's cache - the global generation observed by the
validity check changes, so a previously current version stamp no longer
matches - but leaves the display-column index map `cinfo_column_` exactly as
it was: it is neither cleared nor rebuilt. -/
theorem C10_resetColumns_null (g : GlobalState) (r : RecordState)
    (h : r.data_ver_ = g.col_data_ver_) :
    (resetColumns g none).cinfo_column_ = g.cinfo_column_
    ∧ (resetColumns g none).col_data_ver_ = g.col_data_ver_ + 1
    ∧ r.data_ver_ ≠ (resetColumns g none).col_data_ver_ := by
  refine ⟨rfl, rfl, ?_⟩
  have hv : (resetColumns g none).col_data_ver_ = g.col_data_ver_ + 1 := rfl
  omega

/-- Witness for C10 at the initial global state and a record stamped with its
generation. -/
theorem C10_resetColumns_null_witness :
    (resetColumns initGlobal none).col_data_ver_ = initGlobal.col_data_ver_ + 1 :=
  (C10_resetColumns_null initGlobal rOld rfl).2.1

/-- C8: on a population whose record read succeeds, a protocol tree is
requested from the dissector iff (colorization was requested and colour
filters are in use) or (the columns need repopulation and a custom column or
a field extractor is configured); consequently a population needing neither
colorization nor custom columns nor field extractors never requests a tree. -/
theorem C8_proto_tree (env : Env) (g : GlobalState) (r : RecordState)
    (dc : Bool) (hcap : env.capFilePresent = true) (hok : env.read_ok = true) :
    ((dissect env g r dc).2.treeRequested = true ↔
      ((dc = true ∧ env.color_filters_used = true) ∨
        ((r.col_text_.getD [] = [] ∨ r.data_ver_ ≠ g.col_data_ver_) ∧
          (env.have_custom_cols = true ∨ env.have_field_extractors = true))))
    ∧ (env.have_custom_cols = false → env.have_field_extractors = false →
        dc = false → (dissect env g r dc).2.treeRequested = false) := by
  have ht := dissect_success_trace env g r dc hcap hok
  constructor
  · rw [ht]
    simp
  · intro h1 h2 h3
    rw [ht]
    simp [h1, h2, h3]

/-- Witness for C8: a metadata-only population (no colorization, no custom
columns, no extractors) requests no tree. -/
theorem C8_proto_tree_witness :
    (dissect envS initGlobal initRecord false).2.treeRequested = false :=
  (C8_proto_tree envS initGlobal initRecord false rfl rfl).2 rfl rfl rfl

/-- C9: `resetColorized` clears `colorized_` and changes nothing else - the
cached texts, line count, changed flag, version stamp, conversation and the
highlighting slots on the record metadata are untouched (and the function
does not even receive the global state, so no generation is bumped); on a
record whose cache is current, a subsequent access without colorization
triggers no recomputation while an access with colorization triggers one. -/
theorem C9_resetColorized_frame (env : Env) (g : GlobalState) (r : RecordState)
    (l : List String) (col : Nat)
    (hcap : env.capFilePresent = true)
    (hsome : r.col_text_ = some l) (hlt : col < l.length)
    (hver : r.data_ver_ = g.col_data_ver_) (hcol : col < env.num_cols) :
    (resetColorized r).colorized_ = false
    ∧ (resetColorized r).col_text_ = r.col_text_
    ∧ (resetColorized r).lines_ = r.lines_
    ∧ (resetColorized r).line_count_changed_ = r.line_count_changed_
    ∧ (resetColorized r).data_ver_ = r.data_ver_
    ∧ (resetColorized r).conv_ = r.conv_
    ∧ (resetColorized r).color_filter = r.color_filter
    ∧ (resetColorized r).need_colorize = r.need_colorize
    ∧ (columnString env g (resetColorized r) (col : Int) false).2.2.dissects = 0
    ∧ (columnString env g (resetColorized r) (col : Int) true).2.2.dissects = 1 := by
  refine ⟨rfl, rfl, rfl, rfl, rfl, rfl, rfl, rfl, ?_, ?_⟩
  · rw [columnString_cached env g (resetColorized r) col false l hcap hcol hsome
      hlt hver (Or.inl rfl)]
  · have hneed : (resetColorized r).col_text_ = none ∨
        ((resetColorized r).col_text_.getD []).length ≤ col ∨
        (resetColorized r).data_ver_ ≠ g.col_data_ver_ ∨
        (true && !(resetColorized r).colorized_) = true :=
      Or.inr (Or.inr (Or.inr rfl))
    rw [columnString_dissect_eq env g (resetColorized r) col true hcap hcol hneed]
    exact dissect_dissects env g (resetColorized r) _

/-- Witness for C9 at the populated sample record. -/
theorem C9_resetColorized_frame_witness :
    (resetColorized rPop).colorized_ = false :=
  (C9_resetColorized_frame envS g1 rPop ["m", "payload"] 0 rfl rfl
    (by decide) rfl (by decide)).1

/-- C3 (amended): after every column population, `line_count_changed_` is true
iff the newly computed `lines_` exceeds 1.  The previous `lines_` value is not
consulted: it is reset to 1 when the population begins, so the flag of the
population result does not depend on the prior record state at all. -/
theorem C3_lineCountChanged (g : GlobalState) (n : Nat) (f : CinfoFill)
    (r : RecordState) :
    (cacheColumnStrings g (some (n, f)) r).line_count_changed_ =
      decide (1 < (cacheColumnStrings g (some (n, f)) r).lines_)
    ∧ ∀ r' : RecordState,
        (cacheColumnStrings g (some (n, f)) r').line_count_changed_ =
          (cacheColumnStrings g (some (n, f)) r).line_count_changed_ := by
  refine ⟨cache_changed g n f r, ?_⟩
  intro r'
  rw [cache_changed g n f r', cache_changed g n f r, cache_lines, cache_lines]

/-- Counterexample to C3 as stated: a second population whose maximum
per-column line count (3) is unchanged from the previous population still
sets `line_count_changed_ = true`, not false. -/
theorem C3_counterexample :
    (columnString envS g1 initRecord 0 false).2.1.lines_ = 3
    ∧ (columnString envS (resetColumns g1 none)
        (columnString envS g1 initRecord 0 false).2.1 0 false).2.1.lines_ = 3
    ∧ (columnString envS (resetColumns g1 none)
        (columnString envS g1 initRecord 0 false).2.1 0 false).2.1.line_count_changed_
        = true := by
  refine ⟨by decide, by decide, by decide⟩

/-- C4: after a population with `n` displayed columns, `lines_` is the fold of
`max` over the per-column values (embedded newline count + 1) starting at 1 -
an upper bound of every column's value, attained by some column whenever any
column is displayed - and `lines_ ≥ 1` holds at all times: at construction,
after any population, and after any `columnString` call. -/
theorem C4_lineCount_max (env : Env) (g : GlobalState) (f : CinfoFill)
    (n : Nat) (r : RecordState) (column : Int) (cz : Bool)
    (hr : 1 ≤ r.lines_) :
    (cacheColumnStrings g (some (n, f)) r).lines_ =
      (List.range n).foldl (fun m c => max m (countNewlines (colStr g f c) + 1)) 1
    ∧ (∀ c, c < n → countNewlines (colStr g f c) + 1 ≤
        (cacheColumnStrings g (some (n, f)) r).lines_)
    ∧ (n ≠ 0 → ∃ c, c < n ∧ (cacheColumnStrings g (some (n, f)) r).lines_ =
        countNewlines (colStr g f c) + 1)
    ∧ 1 ≤ (cacheColumnStrings g (some (n, f)) r).lines_
    ∧ initRecord.lines_ = 1
    ∧ 1 ≤ (columnString env g r column cz).2.1.lines_ := by
  refine ⟨cache_lines g n f r, ?_, ?_, cache_lines_pos g n f r, rfl,
    columnString_lines_pos env g r column cz hr⟩
  · intro c hc
    rw [cache_lines]
    exact foldl_max_le_of_mem (fun c => countNewlines (colStr g f c) + 1)
      (List.range n) 1 c (List.mem_range.mpr hc)
  · intro hn
    rw [cache_lines]
    rcases foldl_max_eq_or_mem
        (fun c => countNewlines (colStr g f c) + 1) (List.range n) 1 with
      heq | ⟨c, hc, heq⟩
    · refine ⟨0, Nat.pos_of_ne_zero hn, ?_⟩
      have hb := foldl_max_le_of_mem
        (fun c => countNewlines (colStr g f c) + 1) (List.range n) 1 0
        (List.mem_range.mpr (Nat.pos_of_ne_zero hn))
      dsimp only at hb heq
      omega
    · refine ⟨c, List.mem_range.mp hc, ?_⟩
      simpa using heq

/-- Witness for C4: the sample record's first population has a three-line
column and the line count is 3 and at least 1. -/
theorem C4_lineCount_max_witness :
    (cacheColumnStrings g1 (some (1, sampleFill)) initRecord).lines_ = 3
    ∧ 1 ≤ (cacheColumnStrings g1 (some (1, sampleFill)) initRecord).lines_ :=
  ⟨by decide,
   (C4_lineCount_max envS g1 sampleFill 1 initRecord 0 false (by decide)).2.2.2.1⟩

/-- C2 (amended): a `columnString` request with `column < 0` or
`column > columnCount` returns an empty result, leaves the record unmodified
and triggers no population; but `column = columnCount` itself passes the
source's bounds check (which uses `column > cap_file->cinfo.num_cols`,
strictly greater) and, on an unpopulated record with a readable source,
returns an empty result while triggering one population that mutates
`columnTexts` to the current column count. -/
theorem C2_bounds (env : Env) (g : GlobalState) (r : RecordState)
    (column : Int) (cz : Bool) :
    (column < 0 ∨ (env.num_cols : Int) < column →
      columnString env g r column cz = ("", r, ⟨0, 0, 0, false⟩))
    ∧ (env.capFilePresent = true → env.read_ok = true → r.col_text_ = none →
        (columnString env g r (env.num_cols : Int) cz).1 = ""
        ∧ (columnString env g r (env.num_cols : Int) cz).2.2.dissects = 1
        ∧ ((columnString env g r (env.num_cols : Int) cz).2.1.col_text_.getD
            []).length = env.num_cols) := by
  constructor
  · intro h
    unfold columnString
    rw [if_pos (Or.inr h)]
  · intro hcap hok hnone
    have hg : ¬(env.capFilePresent = false ∨ (env.num_cols : Int) < 0 ∨
        (env.num_cols : Int) < (env.num_cols : Int)) := by
      rw [hcap]
      push_neg
      refine ⟨by simp, by omega, by omega⟩
    have hc : ((env.num_cols : Int)).toNat = env.num_cols := by omega
    have hcols : r.col_text_.getD [] = [] ∨ r.data_ver_ ≠ g.col_data_ver_ := by
      left
      rw [hnone]
      rfl
    have hct := dissect_success_col_text_cols env g r (cz && !r.colorized_)
      hcap hok hcols
    unfold columnString
    rw [if_neg hg]
    dsimp only
    rw [hc, if_pos (Or.inl hnone)]
    refine ⟨?_, ?_, ?_⟩
    · dsimp only
      rw [hct, Option.getD_some]
      exact List.getD_eq_default _ _ (by simp)
    · dsimp only
      rw [dissect_success_trace env g r _ hcap hok]
    · dsimp only
      rw [hct, Option.getD_some]
      simp

/-- Counterexample to C2 as stated: at `column = columnCount` (here 2) on an
unpopulated record, the result is empty but the record IS mutated and a
population IS triggered. -/
theorem C2_counterexample :
    (columnString envS g1 initRecord 2 false).1 = ""
    ∧ (columnString envS g1 initRecord 2 false).2.1.col_text_ ≠
        initRecord.col_text_
    ∧ (columnString envS g1 initRecord 2 false).2.2.dissects = 1 := by
  refine ⟨by decide, by decide, by decide⟩

/-- Witness for C2 at the sample session: the boundary column index triggers
one population. -/
theorem C2_bounds_witness :
    (columnString envS g1 initRecord ((envS.num_cols : Nat) : Int)
      false).2.2.dissects = 1 :=
  ((C2_bounds envS g1 initRecord (-1) false).2 rfl rfl rfl).2.1

/-- C1 (amended): when the record source fails during population of an
unpopulated, stale, never-colorized record and colorization is requested,
`columnString` at the informational column returns the (non-empty whenever the
marker is) error marker written by `col_fill_in_error`, clears the
highlighting result on the record metadata, sets `colorized_ = true`, and
never invokes the dissector - but it does NOT update the version stamp, so
the cache is not treated as populated: a subsequent identical call re-invokes
the record source (one more read). -/
theorem C1_read_failure (env : Env) (g : GlobalState) (r : RecordState)
    (info : Nat) (m : String) (ph fd : Nat → String)
    (hcap : env.capFilePresent = true) (hread : env.read_ok = false)
    (herr : env.errorFill = errFillCinfo info m ph fd)
    (hinfo : info < env.num_cols)
    (hmap : ¬ cinfoColumnValue g.cinfo_column_ info < 0)
    (hnone : r.col_text_ = none) (hver : r.data_ver_ ≠ g.col_data_ver_)
    (hcolz : r.colorized_ = false) :
    (columnString env g r (info : Int) true).1 = m
    ∧ (columnString env g r (info : Int) true).2.1.colorized_ = true
    ∧ (columnString env g r (info : Int) true).2.1.color_filter = none
    ∧ (columnString env g r (info : Int) true).2.2.parses = 0
    ∧ (columnString env g r (info : Int) true).2.1.data_ver_ = r.data_ver_
    ∧ (columnString env g (columnString env g r (info : Int) true).2.1
        (info : Int) true).2.2.reads = 1 := by
  have hneed : r.col_text_ = none ∨ (r.col_text_.getD []).length ≤ info ∨
      r.data_ver_ ≠ g.col_data_ver_ ∨ (true && !r.colorized_) = true :=
    Or.inl hnone
  have e1 := columnString_dissect_eq env g r info true hcap hinfo hneed
  have hcols : r.col_text_.getD [] = [] ∨ r.data_ver_ ≠ g.col_data_ver_ := by
    left
    rw [hnone]
    rfl
  have hdc : (true && !r.colorized_) = true := by rw [hcolz]; rfl
  have hct := dissect_error_col_text_cols env g r (true && !r.colorized_)
    hcap hread hcols
  have hdv := dissect_error_data_ver env g r (true && !r.colorized_) hcap hread
  have hcolo : (dissect env g r (true && !r.colorized_)).1.colorized_ = true := by
    rw [dissect_error_colorized env g r _ hcap hread, hcolz]
    rfl
  have hcf := dissect_error_color_filter env g r (true && !r.colorized_)
    hcap hread hdc
  have htr := dissect_error_trace env g r (true && !r.colorized_) hcap hread
  have hneed2 : (dissect env g r (true && !r.colorized_)).1.col_text_ = none ∨
      (((dissect env g r (true && !r.colorized_)).1.col_text_.getD []).length ≤
        info) ∨
      (dissect env g r (true && !r.colorized_)).1.data_ver_ ≠ g.col_data_ver_ ∨
      (true && !(dissect env g r (true && !r.colorized_)).1.colorized_) = true := by
    refine Or.inr (Or.inr (Or.inl ?_))
    rw [hdv]
    exact hver
  have e2 := columnString_dissect_eq env g
    (dissect env g r (true && !r.colorized_)).1 info true hcap hinfo hneed2
  refine ⟨?_, ?_, ?_, ?_, ?_, ?_⟩
  · rw [e1]
    dsimp only
    rw [hct, Option.getD_some, getD_map_range _ _ _ hinfo, herr]
    unfold colStr errFillCinfo
    dsimp only
    rw [if_neg (by simp), if_neg hmap, if_pos rfl]
  · rw [e1]
    dsimp only
    exact hcolo
  · rw [e1]
    dsimp only
    exact hcf
  · rw [e1]
    dsimp only
    rw [htr]
  · rw [e1]
    dsimp only
    exact hdv
  · rw [e1]
    dsimp only
    rw [e2]
    dsimp only
    rw [dissect_error_trace env g _ _ hcap hread]

/-- Counterexample to C1 as stated: after a failed read with
`colorizeRequested = false`, `colorized_` is NOT set to true, and the next
identical call DOES re-invoke the record source. -/
theorem C1_counterexample :
    (columnString envErr g1 initRecord 1 false).1 = "[Record read error]"
    ∧ (columnString envErr g1 initRecord 1 false).2.1.colorized_ = false
    ∧ (columnString envErr g1
        (columnString envErr g1 initRecord 1 false).2.1 1 false).2.2.reads
        = 1 := by
  refine ⟨by decide, by decide, by decide⟩

/-- Witness for C1 at the sample failing session: the error marker is
returned at the Info column. -/
theorem C1_read_failure_witness :
    (columnString envErr g1 initRecord ((1 : Nat) : Int) true).1 =
      "[Record read error]" :=
  (C1_read_failure envErr g1 initRecord 1 "[Record read error]"
    (fun _ => "-") (fun _ => "m") rfl rfl rfl (by decide) (by decide)
    rfl (by decide) rfl).1

/-- C5: requesting colorization on a cache populated without it forces
exactly one repopulation (`dissect` runs once and sets `colorized_`), and
afterwards neither another colorize-requested access nor a plain access
forces any repopulation. -/
theorem C5_colorize_monotone (env : Env) (g : GlobalState) (r : RecordState)
    (l : List String) (col : Nat)
    (hcap : env.capFilePresent = true) (hok : env.read_ok = true)
    (hsome : r.col_text_ = some l) (hlen : l.length = env.num_cols)
    (hver : r.data_ver_ = g.col_data_ver_) (hcolz : r.colorized_ = false)
    (hcol : col < env.num_cols) :
    (columnString env g r (col : Int) true).2.2.dissects = 1
    ∧ (columnString env g r (col : Int) true).2.1.colorized_ = true
    ∧ (columnString env g (columnString env g r (col : Int) true).2.1
        (col : Int) true).2.2.dissects = 0
    ∧ (columnString env g (columnString env g r (col : Int) true).2.1
        (col : Int) false).2.2.dissects = 0 := by
  have hlnil : r.col_text_.getD [] = l := by rw [hsome]; rfl
  have hne : ¬(r.col_text_.getD [] = [] ∨ r.data_ver_ ≠ g.col_data_ver_) := by
    push_neg
    refine ⟨?_, hver⟩
    rw [hlnil]
    intro h
    rw [h] at hlen
    simp at hlen
    omega
  have hneed : r.col_text_ = none ∨ (r.col_text_.getD []).length ≤ col ∨
      r.data_ver_ ≠ g.col_data_ver_ ∨ (true && !r.colorized_) = true := by
    refine Or.inr (Or.inr (Or.inr ?_))
    rw [hcolz]
    rfl
  have e1 := columnString_dissect_eq env g r col true hcap hcol hneed
  have hct : (dissect env g r (true && !r.colorized_)).1.col_text_ = some l := by
    rw [dissect_success_col_text_nocols env g r _ hcap hok hne, hlnil]
  have hdv := dissect_success_data_ver env g r (true && !r.colorized_) hcap hok
  have hcz1 : (dissect env g r (true && !r.colorized_)).1.colorized_ = true := by
    rw [dissect_success_colorized env g r _ hcap hok, hcolz]
    rfl
  have hlt1 : col < l.length := by rw [hlen]; exact hcol
  have e2 := columnString_cached env g (dissect env g r (true && !r.colorized_)).1
    col true l hcap hcol hct hlt1 hdv (Or.inr hcz1)
  have e3 := columnString_cached env g (dissect env g r (true && !r.colorized_)).1
    col false l hcap hcol hct hlt1 hdv (Or.inl rfl)
  refine ⟨?_, ?_, ?_, ?_⟩
  · rw [e1]
    dsimp only
    exact dissect_dissects env g r _
  · rw [e1]
    dsimp only
    exact hcz1
  · rw [e1]
    dsimp only
    rw [e2]
  · rw [e1]
    dsimp only
    rw [e3]

/-- Witness for C5 at the populated sample record. -/
theorem C5_colorize_monotone_witness :
    (columnString envS g1 rPop ((0 : Nat) : Int) true).2.2.dissects = 1 :=
  (C5_colorize_monotone envS g1 rPop ["m", "payload"] 0 rfl rfl rfl rfl rfl
    rfl (by decide)).1

/-- C7: `resetColumns` with a new descriptor bumps the global generation
(without receiving - hence without touching - any record cache) and rebuilds
the display-column index map; the next `columnString` on a record populated
under the old generation triggers exactly one repopulation whose cached
`columnTexts` length equals the new descriptor's column count, and the call
after that triggers none. -/
theorem C7_schema_invalidation (env : Env) (g : GlobalState) (r : RecordState)
    (based : Nat → Bool) (col : Nat) (cz : Bool) (l : List String)
    (hcap : env.capFilePresent = true) (hok : env.read_ok = true)
    (hsome : r.col_text_ = some l) (hver : r.data_ver_ = g.col_data_ver_)
    (hcol : col < env.num_cols) :
    (resetColumns g (some (env.num_cols, based))).col_data_ver_ =
      g.col_data_ver_ + 1
    ∧ (resetColumns g (some (env.num_cols, based))).cinfo_column_ =
        buildCinfoColumn based env.num_cols
    ∧ (columnString env (resetColumns g (some (env.num_cols, based))) r
        (col : Int) cz).2.2.dissects = 1
    ∧ ((columnString env (resetColumns g (some (env.num_cols, based))) r
        (col : Int) cz).2.1.col_text_.getD []).length = env.num_cols
    ∧ (columnString env (resetColumns g (some (env.num_cols, based)))
        (columnString env (resetColumns g (some (env.num_cols, based))) r
          (col : Int) cz).2.1 (col : Int) cz).2.2.dissects = 0 := by
  have hbump : (resetColumns g (some (env.num_cols, based))).col_data_ver_ =
      g.col_data_ver_ + 1 := rfl
  have hver' : r.data_ver_ ≠
      (resetColumns g (some (env.num_cols, based))).col_data_ver_ := by
    rw [hbump, hver]
    omega
  have hneed : r.col_text_ = none ∨ (r.col_text_.getD []).length ≤ col ∨
      r.data_ver_ ≠ (resetColumns g (some (env.num_cols, based))).col_data_ver_ ∨
      (cz && !r.colorized_) = true :=
    Or.inr (Or.inr (Or.inl hver'))
  have e1 := columnString_dissect_eq env
    (resetColumns g (some (env.num_cols, based))) r col cz hcap hcol hneed
  have hcols : r.col_text_.getD [] = [] ∨ r.data_ver_ ≠
      (resetColumns g (some (env.num_cols, based))).col_data_ver_ :=
    Or.inr hver'
  have hct := dissect_success_col_text_cols env
    (resetColumns g (some (env.num_cols, based))) r (cz && !r.colorized_)
    hcap hok hcols
  have hdv := dissect_success_data_ver env
    (resetColumns g (some (env.num_cols, based))) r (cz && !r.colorized_)
    hcap hok
  have hcz1 : cz = false ∨
      (dissect env (resetColumns g (some (env.num_cols, based))) r
        (cz && !r.colorized_)).1.colorized_ = true := by
    cases hczv : cz
    · exact Or.inl rfl
    · right
      rw [dissect_success_colorized env _ r _ hcap hok]
      cases hcv : r.colorized_ <;> rfl
  have hlt1 : col <
      ((List.range env.num_cols).map
        (colStr (resetColumns g (some (env.num_cols, based)))
          env.successFill)).length := by
    simpa using hcol
  have e2 := columnString_cached env
    (resetColumns g (some (env.num_cols, based)))
    (dissect env (resetColumns g (some (env.num_cols, based))) r
      (cz && !r.colorized_)).1 col cz
    ((List.range env.num_cols).map
      (colStr (resetColumns g (some (env.num_cols, based))) env.successFill))
    hcap hcol hct hlt1 hdv hcz1
  refine ⟨hbump, rfl, ?_, ?_, ?_⟩
  · rw [e1]
    dsimp only
    exact dissect_dissects env _ r _
  · rw [e1]
    dsimp only
    rw [hct, Option.getD_some]
    simp
  · rw [e1]
    dsimp only
    rw [e2]

/-- Witness for C7: the sample schema change bumps the generation. -/
theorem C7_schema_invalidation_witness :
    (resetColumns initGlobal (some (envS.num_cols, fun c => c == 0))).col_data_ver_
      = initGlobal.col_data_ver_ + 1 :=
  (C7_schema_invalidation envS initGlobal rOld (fun c => c == 0) 0 false
    ["old"] rfl rfl rfl rfl (by decide)).1

/-- C6: with the capture file present, a valid column index and a cache
satisfying the documented length invariant (a version-current, non-empty
cache has the current column count; stale or absent caches are arbitrary),
two consecutive `columnString` calls with the same colorize flag return
identical content, and the dissector runs at most once across both calls -
also when the record source fails (then it runs zero times). -/
theorem C6_idempotent (env : Env) (g : GlobalState) (r : RecordState)
    (col : Nat) (cz : Bool)
    (hcap : env.capFilePresent = true) (hcol : col < env.num_cols)
    (hlen : r.data_ver_ = g.col_data_ver_ →
      ∀ l, r.col_text_ = some l → l = [] ∨ l.length = env.num_cols) :
    (columnString env g r (col : Int) cz).1 =
      (columnString env g (columnString env g r (col : Int) cz).2.1
        (col : Int) cz).1
    ∧ (columnString env g r (col : Int) cz).2.2.parses +
        (columnString env g (columnString env g r (col : Int) cz).2.1
          (col : Int) cz).2.2.parses ≤ 1 := by
  by_cases hneed : (r.col_text_ = none ∨ (r.col_text_.getD []).length ≤ col ∨
      r.data_ver_ ≠ g.col_data_ver_ ∨ (cz && !r.colorized_) = true)
  case neg =>
    push_neg at hneed
    obtain ⟨h1, h2, h3, h4⟩ := hneed
    obtain ⟨l, hsome⟩ : ∃ l, r.col_text_ = some l := by
      cases hx : r.col_text_ with
      | none => exact absurd hx h1
      | some l => exact ⟨l, rfl⟩
    have hlt : col < l.length := by
      rw [hsome] at h2
      exact h2
    have hcz : cz = false ∨ r.colorized_ = true := by
      cases hc1 : cz <;> cases hc2 : r.colorized_ <;> simp_all
    have e := columnString_cached env g r col cz l hcap hcol hsome hlt h3 hcz
    constructor
    · rw [e]
      dsimp only
      rw [e]
    · rw [e]
      dsimp only
      rw [e]
      dsimp only
      decide
  case pos =>
    have e1 := columnString_dissect_eq env g r col cz hcap hcol hneed
    by_cases hok : env.read_ok = true
    · by_cases hcols : (r.col_text_.getD [] = [] ∨
          r.data_ver_ ≠ g.col_data_ver_)
      · have hct := dissect_success_col_text_cols env g r (cz && !r.colorized_)
          hcap hok hcols
        have hdv := dissect_success_data_ver env g r (cz && !r.colorized_)
          hcap hok
        have hcz1 : cz = false ∨
            (dissect env g r (cz && !r.colorized_)).1.colorized_ = true := by
          cases hczv : cz
          · exact Or.inl rfl
          · right
            rw [dissect_success_colorized env g r _ hcap hok]
            cases hcv : r.colorized_ <;> rfl
        have hlt1 : col <
            ((List.range env.num_cols).map (colStr g env.successFill)).length := by
          simpa using hcol
        have e2 := columnString_cached env g
          (dissect env g r (cz && !r.colorized_)).1 col cz
          ((List.range env.num_cols).map (colStr g env.successFill))
          hcap hcol hct hlt1 hdv hcz1
        constructor
        · rw [e1]
          dsimp only
          rw [e2]
          dsimp only
          rw [hct, Option.getD_some]
        · rw [e1]
          dsimp only
          rw [e2]
          dsimp only
          rw [dissect_success_trace env g r _ hcap hok]
      · have hne : r.col_text_.getD [] ≠ [] := fun h => hcols (Or.inl h)
        have hveq : r.data_ver_ = g.col_data_ver_ := by
          by_contra h
          exact hcols (Or.inr h)
        obtain ⟨l, hsome⟩ : ∃ l, r.col_text_ = some l := by
          cases hx : r.col_text_ with
          | none =>
              rw [hx] at hne
              exact absurd rfl hne
          | some l => exact ⟨l, rfl⟩
        have hlist : l.length = env.num_cols := by
          rcases hlen hveq l hsome with h | h
          · rw [hsome] at hne
            exact absurd h hne
          · exact h
        have hct : (dissect env g r (cz && !r.colorized_)).1.col_text_ =
            some l := by
          rw [dissect_success_col_text_nocols env g r _ hcap hok hcols, hsome]
          rfl
        have hdv := dissect_success_data_ver env g r (cz && !r.colorized_)
          hcap hok
        have hcz1 : cz = false ∨
            (dissect env g r (cz && !r.colorized_)).1.colorized_ = true := by
          cases hczv : cz
          · exact Or.inl rfl
          · right
            rw [dissect_success_colorized env g r _ hcap hok]
            cases hcv : r.colorized_ <;> rfl
        have hlt1 : col < l.length := by
          rw [hlist]
          exact hcol
        have e2 := columnString_cached env g
          (dissect env g r (cz && !r.colorized_)).1 col cz l
          hcap hcol hct hlt1 hdv hcz1
        constructor
        · rw [e1]
          dsimp only
          rw [e2]
          dsimp only
          rw [hct, Option.getD_some]
        · rw [e1]
          dsimp only
          rw [e2]
          dsimp only
          rw [dissect_success_trace env g r _ hcap hok]
    · have hko : env.read_ok = false := by
        cases hkx : env.read_ok
        · rfl
        · exact absurd hkx hok
      by_cases hcols : (r.col_text_.getD [] = [] ∨
          r.data_ver_ ≠ g.col_data_ver_)
      · have hct := dissect_error_col_text_cols env g r (cz && !r.colorized_)
          hcap hko hcols
        have hdv := dissect_error_data_ver env g r (cz && !r.colorized_)
          hcap hko
        have hcz1 : cz = false ∨
            (dissect env g r (cz && !r.colorized_)).1.colorized_ = true := by
          cases hczv : cz
          · exact Or.inl rfl
          · right
            rw [dissect_error_colorized env g r _ hcap hko]
            cases hcv : r.colorized_ <;> rfl
        have htr1 := dissect_error_trace env g r (cz && !r.colorized_) hcap hko
        by_cases hver : r.data_ver_ = g.col_data_ver_
        · have hdv1 : (dissect env g r (cz && !r.colorized_)).1.data_ver_ =
              g.col_data_ver_ := by
            rw [hdv]
            exact hver
          have hlt1 : col <
              ((List.range env.num_cols).map (colStr g env.errorFill)).length := by
            simpa using hcol
          have e2 := columnString_cached env g
            (dissect env g r (cz && !r.colorized_)).1 col cz
            ((List.range env.num_cols).map (colStr g env.errorFill))
            hcap hcol hct hlt1 hdv1 hcz1
          constructor
          · rw [e1]
            dsimp only
            rw [e2]
            dsimp only
            rw [hct, Option.getD_some]
          · rw [e1]
            dsimp only
            rw [e2]
            dsimp only
            rw [htr1]
            decide
        · have hneed2 :
              (dissect env g r (cz && !r.colorized_)).1.col_text_ = none ∨
              (((dissect env g r (cz && !r.colorized_)).1.col_text_.getD
                []).length ≤ col) ∨
              (dissect env g r (cz && !r.colorized_)).1.data_ver_ ≠
                g.col_data_ver_ ∨
              (cz && !(dissect env g r
                (cz && !r.colorized_)).1.colorized_) = true := by
            refine Or.inr (Or.inr (Or.inl ?_))
            rw [hdv]
            exact hver
          have e2 := columnString_dissect_eq env g
            (dissect env g r (cz && !r.colorized_)).1 col cz hcap hcol hneed2
          have hcols2 :
              (dissect env g r (cz && !r.colorized_)).1.col_text_.getD [] = []
              ∨ (dissect env g r (cz && !r.colorized_)).1.data_ver_ ≠
                g.col_data_ver_ := by
            refine Or.inr ?_
            rw [hdv]
            exact hver
          have hct2 := dissect_error_col_text_cols env g
            (dissect env g r (cz && !r.colorized_)).1
            (cz && !(dissect env g r (cz && !r.colorized_)).1.colorized_)
            hcap hko hcols2
          have htr2 := dissect_error_trace env g
            (dissect env g r (cz && !r.colorized_)).1
            (cz && !(dissect env g r (cz && !r.colorized_)).1.colorized_)
            hcap hko
          constructor
          · rw [e1]
            dsimp only
            rw [e2]
            dsimp only
            rw [hct, hct2, Option.getD_some]
          · rw [e1]
            dsimp only
            rw [e2]
            dsimp only
            rw [htr1, htr2]
            decide
      · have hne : r.col_text_.getD [] ≠ [] := fun h => hcols (Or.inl h)
        have hveq : r.data_ver_ = g.col_data_ver_ := by
          by_contra h
          exact hcols (Or.inr h)
        obtain ⟨l, hsome⟩ : ∃ l, r.col_text_ = some l := by
          cases hx : r.col_text_ with
          | none =>
              rw [hx] at hne
              exact absurd rfl hne
          | some l => exact ⟨l, rfl⟩
        have hlist : l.length = env.num_cols := by
          rcases hlen hveq l hsome with h | h
          · rw [hsome] at hne
            exact absurd h hne
          · exact h
        have hct : (dissect env g r (cz && !r.colorized_)).1.col_text_ =
            some l := by
          rw [dissect_error_col_text_nocols env g r _ hcap hko hcols, hsome]
          rfl
        have hdv1 : (dissect env g r (cz && !r.colorized_)).1.data_ver_ =
            g.col_data_ver_ := by
          rw [dissect_error_data_ver env g r _ hcap hko]
          exact hveq
        have hcz1 : cz = false ∨
            (dissect env g r (cz && !r.colorized_)).1.colorized_ = true := by
          cases hczv : cz
          · exact Or.inl rfl
          · right
            rw [dissect_error_colorized env g r _ hcap hko]
            cases hcv : r.colorized_ <;> rfl
        have hlt1 : col < l.length := by
          rw [hlist]
          exact hcol
        have e2 := columnString_cached env g
          (dissect env g r (cz && !r.colorized_)).1 col cz l
          hcap hcol hct hlt1 hdv1 hcz1
        constructor
        · rw [e1]
          dsimp only
          rw [e2]
          dsimp only
          rw [hct, Option.getD_some]
        · rw [e1]
          dsimp only
          rw [e2]
          dsimp only
          rw [dissect_error_trace env g r _ hcap hko]
          decide

/-- Witness for C6 at a fresh record of the sample session. -/
theorem C6_idempotent_witness :
    (columnString envS g1 initRecord ((0 : Nat) : Int) false).1 =
      (columnString envS g1
        (columnString envS g1 initRecord ((0 : Nat) : Int) false).2.1
        ((0 : Nat) : Int) false).1 :=
  (C6_idempotent envS g1 initRecord 0 false rfl (by decide)
    (fun _ l h => Option.noConfusion h)).1

end PacketListRecord
